import Mathlib

/-!
Shallow embedding of the goreleaser build pipe
(source: `internal/pipe/build/build.go`).

External collaborators (templating, filesystem, subprocesses, the pluggable
per-language builder) are modelled as oracle functions gathered in a `World`
record; the pipe's own control flow is translated function by function from
the Go source.  Effects that matter to the specification (hook subprocess
invocations, builder calls, skip logging) are recorded as `Event` traces.
-/

/-- Mirrors Go `strings.Contains`: `containsSub s sub` is true when `sub`
occurs as a contiguous run inside `s`. -/
def containsSub (s sub : List Char) : Bool :=
  match s with
  | [] => sub.isEmpty
  | c :: rest => sub.isPrefixOf (c :: rest) || containsSub rest sub

/-- Mirrors Go `strings.Split(s, sep)` for a one-character separator:
returns the first component together with the list of the remaining
components (so the full component list, always nonempty in Go, is
`r.1 :: r.2`). -/
def splitOnChar (c : Char) : List Char → List Char × List (List Char)
  | [] => ([], [])
  | x :: xs =>
    let r := splitOnChar c xs
    if x = c then ([], r.1 :: r.2)
    else (x :: r.1, r.2)

/-- The `\x7b` character (opening brace), written by code point. -/
def lbrace : Char := Char.ofNat 123

/-- The `\x7d` character (closing brace), written by code point. -/
def rbrace : Char := Char.ofNat 125

/-- Go `os.Expand`'s `isShellSpecialVar`. -/
def isShellSpecialVar (c : Char) : Bool :=
  c = '*' || c = '#' || c = '$' || c = '@' || c = '!' || c = '?' || c = '-' ||
    ('0' ≤ c && c ≤ '9')

/-- Go `os.Expand`'s `isAlphaNum`. -/
def isAlphaNum (c : Char) : Bool :=
  c = '_' || ('0' ≤ c && c ≤ '9') || ('a' ≤ c && c ≤ 'z') || ('A' ≤ c && c ≤ 'Z')

/-- Brace-delimited scan of Go `getShellName` (`rest` is the text after the
opening brace): first closing brace ends the name. -/
def braceName (rest : List Char) : List Char × Nat :=
  match rest.findIdx? (· = rbrace) with
  | some 0 => ([], 2)
  | some k => (rest.take k, k + 2)
  | none => ([], 1)

/-- Go `os.Expand`'s `getShellName`: the variable name starting at the head
of `s` (which follows a dollar sign) and the number of characters consumed. -/
def getShellName (s : List Char) : List Char × Nat :=
  match s with
  | [] => ([], 0)
  | c :: rest =>
    if c = lbrace then
      match rest with
      | c1 :: c2 :: _ =>
        if isShellSpecialVar c1 && c2 = rbrace then ([c1], 3)
        else braceName rest
      | _ => braceName rest
    else if isShellSpecialVar c then ([c], 1)
    else ((c :: rest).takeWhile isAlphaNum, ((c :: rest).takeWhile isAlphaNum).length)

/-- Fuelled scan of Go `os.Expand` (structural recursion on the fuel so
the kernel can evaluate it; every recursive call shortens the list, so
fuel equal to the list length never runs out). -/
def goExpandFuel (mapping : String → String) : Nat → List Char → List Char
  | 0, _ => []
  | _ + 1, [] => []
  | fuel + 1, c :: rest =>
    if c = '$' then
      if rest.isEmpty then ['$']
      else
        let nw := getShellName rest
        if nw.1 = [] && nw.2 > 0 then goExpandFuel mapping fuel (rest.drop nw.2)
        else if nw.1 = [] then '$' :: goExpandFuel mapping fuel rest
        else (mapping (String.mk nw.1)).toList ++ goExpandFuel mapping fuel (rest.drop nw.2)
    else c :: goExpandFuel mapping fuel rest

/-- Go `os.Expand` over a character list: replaces `$name` and
`$\x7bname\x7d` references through `mapping`. -/
def goExpand (mapping : String → String) (l : List Char) : List Char :=
  goExpandFuel mapping l.length l

/-- Go `os.ExpandEnv` on a string, with the process environment supplied as a
lookup function (unset variables map to the empty string, as `os.Getenv`
does). -/
def goExpandEnv (procEnv : String → String) (s : String) : String :=
  String.mk (goExpand procEnv s.toList)

/-- One pre/post hook as configured (`config.Hook`): command, directory and
environment entries are all templates. -/
structure Hook where
  cmd : String
  dir : String
  env : List String
deriving DecidableEq

/-- The `Pre` and `Post` hook lists of `config.Build.Hooks`. -/
structure BuildHookConfig where
  pre : List Hook
  post : List Hook
deriving DecidableEq

/-- `config.BuildProxy`: templated import path and version of the proxied
package. -/
structure ProxyCfg where
  path : String
  version : String
deriving DecidableEq

/-- The fields of `config.Build` that the pipe reads or writes.  The
`proxy` field holds the optional `ProxyConfig`. -/
structure Build where
  id : String
  lang : String
  binary : String
  main : String
  dir : String
  targets : List String
  env : List String
  flags : List String
  skip : Bool
  hooks : BuildHookConfig
  proxy : Option ProxyCfg
deriving DecidableEq

/-- Modelled from the spec: `config.Build.IsProxied` is not under `src/`;
per the spec (§4.2), proxying applies exactly when the build definition
declares a `ProxyConfig`. -/
def Build.IsProxied (b : Build) : Bool := b.proxy.isSome

/-- `pkg/build.Options` as populated by `buildOptionsForTarget`. -/
structure Options where
  target : String
  ext : String
  os : String
  arch : String
  name : String
  path : String
deriving DecidableEq

/-- The fields of `context.Context` that the pipe reads. -/
structure Ctx where
  projectName : String
  dist : String
  parallelism : Nat
  env : List String
  skipPostBuildHooks : Bool
  builds : List Build
  singleBuild : Build
deriving DecidableEq

/-- Oracles for every external collaborator the pipe calls: the template
engine, the shell-word splitter, the filesystem, subprocess execution, and
the pluggable per-language builder.  Each oracle returns the outcome the
environment would produce for that call. -/
structure World where
  procEnv : String → String
  builderWithDefaults : Build → Except String Build
  builderBuild : Build → Options → Except String Unit
  tmplApply : String → Except String String
  tmplApplyExtra : String → String → String → Except String String
  tmplOpts : Options → String → Except String String
  tmplOptsEnv : Options → List String → String → Except String String
  shellwords : String → Except String (List String)
  runCmd : String → List String → List String → Except String Unit
  abs : String → Except String String
  mkdir : String → Except String Unit
  writeFile : String → String → Except String Unit
  openRead : String → Except String Unit
  openWrite : String → Except String Unit
  ioCopy : Except String Unit
  tidy : Except (String × String) Unit

/-- One subprocess invocation made by the hook runner: working directory,
parsed argument vector, and the environment handed to the process. -/
structure RunCall where
  dir : String
  cmd : List String
  env : List String
deriving DecidableEq

/-- Hook phase. -/
inductive Phase where
  | pre
  | post
deriving DecidableEq

/-- Observable effects of a pipe run. -/
inductive Event where
  | skipLog (id : String)
  | hookCall (phase : Phase) (call : RunCall)
  | builderCall (id : String) (target : String)
deriving DecidableEq

/-- Loop of `extFor` over the flag list for a windows target: the first
recognized build-mode flag decides the extension. -/
def windowsExt : List String → String
  | [] => ".exe"
  | s :: rest =>
    if s = "-buildmode=c-shared" then ".dll"
    else if s = "-buildmode=c-archive" then ".lib"
    else windowsExt rest

/-- `extFor` from the source: the file extension for a (target, flags)
pair. -/
def extFor (target : String) (flags : List String) : String :=
  if containsSub target.toList "windows".toList then windowsExt flags
  else if target = "js_wasm" then ".wasm"
  else ""

/-- `buildOptionsForTarget` from the source: computes the per-target build
options.  OS and architecture are the first two components of the target
split on underscores when the target contains one, empty otherwise; the
binary name template is expanded with the partially-built options; the
output path joins dist, `<id>_<target>` and the binary name and is made
absolute. -/
def buildOptionsForTarget (w : World) (ctx : Ctx) (b : Build) (target : String) :
    Except String Options :=
  let ext := extFor target b.flags
  let parts := splitOnChar '_' target.toList
  let goos := if target.toList.contains '_' then String.mk parts.1 else ""
  let goarch := if target.toList.contains '_' then String.mk (parts.2.getD 0 []) else ""
  let buildOpts : Options :=
    { target := target, ext := ext, os := goos, arch := goarch, name := "", path := "" }
  match w.tmplOpts buildOpts b.binary with
  | .error e => .error e
  | .ok binary =>
    let name := binary ++ ext
    match w.abs (ctx.dist ++ "/" ++ b.id ++ "_" ++ target ++ "/" ++ name) with
    | .error e => .error e
    | .ok path => .ok { buildOpts with name := name, path := path }

/-- Sequencing helper used throughout the pipe: continue with the payload
of a successful step, or produce the step's error result. -/
def onOk {α β : Type} (r : Except String α) (err : String → β) (k : α → β) : β :=
  match r with
  | .error e => err e
  | .ok a => k a

lemma onOk_error {α β : Type} (e : String) (err : String → β) (k : α → β) :
    onOk (.error e) err k = err e := rfl

lemma onOk_ok {α β : Type} (a : α) (err : String → β) (k : α → β) :
    onOk (.ok a) err k = k a := rfl

/-- Sequencing helper for hook-runner results (trace plus optional
error). -/
def onPair {β : Type} (r : List RunCall × Option String)
    (fail : List RunCall → String → β) (k : List RunCall → β) : β :=
  match r with
  | (calls, some e) => fail calls e
  | (calls, none) => k calls

lemma onPair_some {β : Type} (calls : List RunCall) (e : String)
    (fail : List RunCall → String → β) (k : List RunCall → β) :
    onPair (calls, some e) fail k = fail calls e := rfl

lemma onPair_none {β : Type} (calls : List RunCall)
    (fail : List RunCall → String → β) (k : List RunCall → β) :
    onPair (calls, none) fail k = k calls := rfl

/-- Expansion of one hook's `Env` entries, in order, stopping at the first
template failure (the inner env loop of `runHook`). -/
def expandHookEnv (w : World) (opts : Options) : List String → Except String (List String)
  | [] => .ok []
  | e :: rest =>
    match w.tmplOpts opts e with
    | .error err => .error err
    | .ok v =>
      match expandHookEnv w opts rest with
      | .error err => .error err
      | .ok vs => .ok (v :: vs)

/-- Body of `runHook`'s loop for one hook: layer the environment (context
env, then build env, then the hook's own template-expanded entries), expand
the directory and command templates, split the command into words and run
it.  Returns the subprocess invocations attempted (zero or one) and the
error, if any. -/
def runOneHook (w : World) (ctx : Ctx) (opts : Options) (buildEnv : List String)
    (hook : Hook) : List RunCall × Option String :=
  onOk (expandHookEnv w opts hook.env) (fun e => ([], some e)) fun hookEnv =>
    let env := ctx.env ++ buildEnv ++ hookEnv
    onOk (w.tmplOpts opts hook.dir) (fun e => ([], some e)) fun dir =>
      onOk (w.tmplOptsEnv opts env hook.cmd) (fun e => ([], some e)) fun sh =>
        onOk (w.shellwords sh) (fun e => ([], some e)) fun cmd =>
          onOk (w.runCmd dir cmd env) (fun e => ([⟨dir, cmd, env⟩], some e))
            fun _ => ([⟨dir, cmd, env⟩], none)

/-- `runHook` from the source: runs the hooks of one phase sequentially,
stopping at the first failure.  Returns every subprocess invocation made
and the first error, if any. -/
def runHook (w : World) (ctx : Ctx) (opts : Options) (buildEnv : List String) :
    List Hook → List RunCall × Option String
  | [] => ([], none)
  | h :: rest =>
    onPair (runOneHook w ctx opts buildEnv h) (fun calls e => (calls, some e))
      fun calls =>
        let r := runHook w ctx opts buildEnv rest
        (calls ++ r.1, r.2)

/-- The closure `runPipeOnBuild` schedules for one target: resolve options,
run pre hooks (errors tagged "pre hook failed"), call the builder, then run
post hooks (errors tagged "post hook failed") unless the context's
`SkipPostBuildHooks` flag is set. -/
def taskForTarget (w : World) (ctx : Ctx) (b : Build) (target : String) :
    List Event × Option String :=
  onOk (buildOptionsForTarget w ctx b target) (fun e => ([], some e)) fun opts =>
    onPair (runHook w ctx opts b.env b.hooks.pre)
      (fun calls e =>
        (calls.map (Event.hookCall Phase.pre), some ("pre hook failed: " ++ e)))
      fun calls =>
        let preEvents := calls.map (Event.hookCall Phase.pre)
        onOk (w.builderBuild b opts)
          (fun e => (preEvents ++ [Event.builderCall b.id target], some e)) fun _ =>
            let built := preEvents ++ [Event.builderCall b.id target]
            if ctx.skipPostBuildHooks then (built, none)
            else
              onPair (runHook w ctx opts b.env b.hooks.post)
                (fun calls2 e =>
                  (built ++ calls2.map (Event.hookCall Phase.post),
                   some ("post hook failed: " ++ e)))
                fun calls2 => (built ++ calls2.map (Event.hookCall Phase.post), none)

/-- The go.mod template written by `proxy` (template braces written as code
points). -/
def goModTemplate : String :=
  "\nmodule \x7b\x7b .ProjectName \x7d\x7d\n\nrequire \x7b\x7b .Proxy \x7d\x7d \x7b\x7b .Version \x7d\x7d\n\n"

/-- The main.go template written by `proxy` (template braces written as
code points). -/
def mainGoTemplate : String :=
  "\n// +build main\npackage main\n\nimport _ \"\x7b\x7b .Proxy \x7d\x7d\"\n"

/-- The uniform failure result of `proxy`: the unchanged build plus the
wrapped error. -/
def perr (b : Build) (e : String) : Build × Option String :=
  (b, some ("failed to proxy module: " ++ e))

/-- `proxy` from the source: for a proxied build, expand the import path
and version, render the synthetic go.mod and main.go, create the scratch
directory `<dist>/build_<id>`, write both files, copy the caller's go.sum,
and run `go mod tidy`; every failure is wrapped with
"failed to proxy module: " and returns the build unchanged.  Only on full
success are `Main` and `Dir` rewritten. -/
def proxy (w : World) (ctx : Ctx) (b : Build) : Build × Option String :=
  match b.proxy with
  | none => (b, none)
  | some pc =>
    onOk (w.tmplApply pc.path) (perr b) fun proxyPath =>
      onOk (w.tmplApply pc.version) (perr b) fun version =>
        onOk (w.tmplApplyExtra proxyPath version goModTemplate) (perr b) fun modContent =>
          onOk (w.tmplApplyExtra proxyPath version mainGoTemplate) (perr b) fun mainContent =>
            let dir := ctx.dist ++ "/build_" ++ b.id
            onOk (w.mkdir dir) (perr b) fun _ =>
              onOk (w.writeFile (dir ++ "/main.go") mainContent) (perr b) fun _ =>
                onOk (w.writeFile (dir ++ "/go.mod") modContent) (perr b) fun _ =>
                  onOk (w.openRead "go.sum") (perr b) fun _ =>
                    onOk (w.openWrite (dir ++ "/go.sum")) (perr b) fun _ =>
                      onOk w.ioCopy (perr b) fun _ =>
                        match w.tidy with
                        | .error eo => perr b (eo.1 ++ ": " ++ eo.2)
                        | .ok _ => ({ b with main := proxyPath, dir := dir }, none)

/-- Modelled from the spec: `internal/semerrgroup` is not under `src/`.
Per the spec (§4.6, §7), the executor lets every started task run to
completion and `Wait` returns the aggregate of all task errors, failing
exactly when some task failed.  The joined event list concatenates each
task's events in target order (interleaving is not modelled). -/
def semerrgroupWait (results : List (List Event × Option String)) :
    List Event × List String :=
  ((results.map Prod.fst).flatten, results.filterMap Prod.snd)

/-- `runPipeOnBuild` from the source: proxy first (an error aborts before
any task is scheduled), then one task per target handed to the semaphore
error group. -/
def runPipeOnBuild (w : World) (ctx : Ctx) (b : Build) : List Event × List String :=
  match proxy w ctx b with
  | (_, some e) => ([], [e])
  | (b', none) => semerrgroupWait (b'.targets.map (taskForTarget w ctx b'))

/-- The loop of `Pipe.Run`: skipped builds are logged and contribute no
work; the first failing build aborts the remaining ones. -/
def runBuilds (w : World) (ctx : Ctx) : List Build → List Event × List String
  | [] => ([], [])
  | b :: rest =>
    if b.skip then
      let r := runBuilds w ctx rest
      (Event.skipLog b.id :: r.1, r.2)
    else
      let r := runPipeOnBuild w ctx b
      if r.2.isEmpty then
        let r2 := runBuilds w ctx rest
        (r.1 ++ r2.1, r2.2)
      else r

/-- Early-exit effectful map (the defaulting loop over the build list). -/
def mapMExcept {α β ε : Type} (f : α → Except ε β) : List α → Except ε (List β)
  | [] => .ok []
  | a :: rest =>
    match f a with
    | .error e => .error e
    | .ok b =>
      match mapMExcept f rest with
      | .error e => .error e
      | .ok bs => .ok (b :: bs)

/-- Modelled from the spec: the `internal/ids` registry is not under
`src/`.  Per the spec (§3, §4.1), it tracks every assigned build ID and
`Validate` signals a configuration error exactly when two definitions
share an ID. -/
def idsValidate (assigned : List String) : Option String :=
  match assigned.find? (fun s => decide (1 < assigned.count s)) with
  | some s => some ("found more than one build with the id: " ++ s)
  | none => none

/-- The orchestrator's own part of `buildWithDefaults`: fill `Lang`,
`Binary` and `ID` when unset and expand environment-variable references in
`Env` against the process environment. -/
def orchestratorDefaults (w : World) (ctx : Ctx) (b : Build) : Build :=
  let b1 := if b.lang = "" then { b with lang := "go" } else b
  let b2 := if b1.binary = "" then { b1 with binary := ctx.projectName } else b1
  let b3 := if b2.id = "" then { b2 with id := ctx.projectName } else b2
  { b3 with env := b3.env.map (goExpandEnv w.procEnv) }

/-- `buildWithDefaults` from the source: orchestrator defaults followed by
the pluggable language builder's `WithDefaults`. -/
def buildWithDefaults (w : World) (ctx : Ctx) (b : Build) : Except String Build :=
  w.builderWithDefaults (orchestratorDefaults w ctx b)

namespace Pipe

/-- `Pipe.Run` from the source: iterate over the configured builds. -/
def Run (w : World) (ctx : Ctx) : List Event × List String :=
  runBuilds w ctx ctx.builds

/-- `Pipe.Default` from the source: default every configured build while
registering its resulting ID, fall back to the single-build shorthand when
the list is empty, then validate ID uniqueness. -/
def Default (w : World) (ctx : Ctx) : Except String (List Build) :=
  onOk (mapMExcept (buildWithDefaults w ctx) ctx.builds) Except.error fun bs =>
    onOk (if ctx.builds.isEmpty then
            onOk (buildWithDefaults w ctx ctx.singleBuild) Except.error fun b =>
              Except.ok [b]
          else Except.ok bs) Except.error fun bss =>
      match idsValidate (bs.map Build.id) with
      | some e => .error e
      | none => .ok bss

end Pipe

deriving instance DecidableEq for Except

/-- A world in which every external call succeeds and every template
expands to itself. -/
def idWorld : World where
  procEnv := fun _ => ""
  builderWithDefaults := .ok
  builderBuild := fun _ _ => .ok ()
  tmplApply := .ok
  tmplApplyExtra := fun _ _ s => .ok s
  tmplOpts := fun _ s => .ok s
  tmplOptsEnv := fun _ _ s => .ok s
  shellwords := fun s => .ok [s]
  runCmd := fun _ _ _ => .ok ()
  abs := .ok
  mkdir := fun _ => .ok ()
  writeFile := fun _ _ => .ok ()
  openRead := fun _ => .ok ()
  openWrite := fun _ => .ok ()
  ioCopy := .ok ()
  tidy := .ok ()

/-- A plain, fully defaulted build definition. -/
def build0 : Build where
  id := "b1"
  lang := "go"
  binary := "bin"
  main := ""
  dir := ""
  targets := []
  env := []
  flags := []
  skip := false
  hooks := ⟨[], []⟩
  proxy := none

/-- A plain context. -/
def ctx0 : Ctx where
  projectName := "proj"
  dist := "dist"
  parallelism := 4
  env := []
  skipPostBuildHooks := false
  builds := []
  singleBuild := build0

lemma filterMapSnd_isEmpty_eq_all (l : List (List Event × Option String)) :
    (l.filterMap Prod.snd).isEmpty = l.all (fun r => r.2.isNone) := by
  induction l with
  | nil => rfl
  | cons r t ih => cases h : r.2 <;> simp_all

lemma splitOnChar_fst (c : Char) (l : List Char) :
    (splitOnChar c l).1 = l.takeWhile (· ≠ c) := by
  induction l with
  | nil => rfl
  | cons x xs ih =>
    by_cases hx : x = c
    · subst hx; simp [splitOnChar]
    · simp [splitOnChar, hx, ih]

lemma splitOnChar_snd_head (c : Char) (l : List Char) (h : c ∈ l) :
    (splitOnChar c l).2.getD 0 [] =
      ((l.dropWhile (· ≠ c)).drop 1).takeWhile (· ≠ c) := by
  induction l with
  | nil => cases h
  | cons x xs ih =>
    by_cases hx : x = c
    · subst hx; simp [splitOnChar, splitOnChar_fst]
    · have hmem : c ∈ xs := by
        cases h with
        | head => exact absurd rfl hx
        | tail _ hm => exact hm
      have ih' := ih hmem
      simp [splitOnChar, hx]
      simpa using ih'

/-- Either of the two build-mode flags `extFor` recognizes. -/
def isBuildmodeFlag (s : String) : Bool :=
  s = "-buildmode=c-shared" || s = "-buildmode=c-archive"

lemma windowsExt_of_no_buildmode (flags : List String)
    (h : ∀ f ∈ flags, isBuildmodeFlag f = false) : windowsExt flags = ".exe" := by
  induction flags with
  | nil => rfl
  | cons f rest ih =>
    have hf := h f (List.mem_cons_self f rest)
    simp [isBuildmodeFlag] at hf
    simp [windowsExt, hf.1, hf.2]
    exact ih fun g hg => h g (List.mem_cons_of_mem f hg)

lemma windowsExt_append_of_no_buildmode (pre rest : List String)
    (h : ∀ f ∈ pre, isBuildmodeFlag f = false) :
    windowsExt (pre ++ rest) = windowsExt rest := by
  induction pre with
  | nil => rfl
  | cons f ps ih =>
    have hf := h f (List.mem_cons_self f ps)
    simp [isBuildmodeFlag] at hf
    simp [windowsExt, hf.1, hf.2]
    exact ih fun g hg => h g (List.mem_cons_of_mem f hg)

lemma idsValidate_isSome_iff (l : List String) :
    (idsValidate l).isSome ↔ ¬ l.Nodup := by
  unfold idsValidate
  cases hf : l.find? (fun s => decide (1 < l.count s)) with
  | none =>
    simp only [Option.isSome_none, Bool.false_eq_true, false_iff, not_not]
    rw [List.nodup_iff_count_le_one]
    intro a
    by_cases ha : a ∈ l
    · have := List.find?_eq_none.mp hf a ha
      simp at this
      omega
    · have : l.count a = 0 := List.count_eq_zero.mpr ha
      omega
  | some s =>
    simp only [Option.isSome_some, true_iff]
    have hp := List.find?_some hf
    simp at hp
    intro hn
    have := List.nodup_iff_count_le_one.mp hn s
    omega

lemma runHook_append_ok (w : World) (ctx : Ctx) (opts : Options) (be : List String)
    (pre rest : List Hook) (hpre : (runHook w ctx opts be pre).2 = none) :
    runHook w ctx opts be (pre ++ rest) =
      ((runHook w ctx opts be pre).1 ++ (runHook w ctx opts be rest).1,
       (runHook w ctx opts be rest).2) := by
  induction pre with
  | nil => simp [runHook]
  | cons p ps ih =>
    cases hp : runOneHook w ctx opts be p with
    | mk calls err =>
      cases err with
      | some e => simp [runHook, hp, onPair_some] at hpre
      | none =>
        simp only [runHook, hp, onPair_none] at hpre
        simp only [List.cons_append, runHook, hp, onPair_none, List.append_eq]
        rw [ih hpre]
        simp [List.append_assoc]

lemma buildOptionsForTarget_congr (w : World) (c1 c2 : Ctx) (b : Build) (t : String)
    (h : c1.dist = c2.dist) :
    buildOptionsForTarget w c1 b t = buildOptionsForTarget w c2 b t := by
  unfold buildOptionsForTarget
  rw [h]

lemma runOneHook_congr (w : World) (c1 c2 : Ctx) (opts : Options) (be : List String)
    (hook : Hook) (h : c1.env = c2.env) :
    runOneHook w c1 opts be hook = runOneHook w c2 opts be hook := by
  unfold runOneHook
  rw [h]

lemma runHook_congr (w : World) (c1 c2 : Ctx) (opts : Options) (be : List String)
    (hooks : List Hook) (h : c1.env = c2.env) :
    runHook w c1 opts be hooks = runHook w c2 opts be hooks := by
  induction hooks with
  | nil => rfl
  | cons hk rest ih =>
    simp only [runHook, runOneHook_congr w c1 c2 opts be hk h, ih]

/-- True exactly on post-phase hook invocation events. -/
def Event.isPostHookCall : Event → Bool
  | .hookCall Phase.post _ => true
  | _ => false

lemma isPostHookCall_pre (c : RunCall) :
    (Event.hookCall Phase.pre c).isPostHookCall = false := rfl

lemma isPostHookCall_post (c : RunCall) :
    (Event.hookCall Phase.post c).isPostHookCall = true := rfl

lemma isPostHookCall_builderCall (i t : String) :
    (Event.builderCall i t).isPostHookCall = false := rfl

lemma all_notPost_mapPre (l : List RunCall) :
    (l.map (Event.hookCall Phase.pre)).all (fun e => !e.isPostHookCall) = true := by
  induction l <;> simp_all [Event.isPostHookCall]

lemma filter_notPost_mapPre (l : List RunCall) :
    (l.map (Event.hookCall Phase.pre)).filter (fun e => !e.isPostHookCall) =
      l.map (Event.hookCall Phase.pre) := by
  induction l <;> simp_all [Event.isPostHookCall]

lemma filter_notPost_mapPost (l : List RunCall) :
    (l.map (Event.hookCall Phase.post)).filter (fun e => !e.isPostHookCall) = [] := by
  induction l <;> simp_all [Event.isPostHookCall]

lemma toList_isPrefixOf_append (s t : String) :
    s.toList.isPrefixOf (s ++ t).toList = true := by
  have hd : (s ++ t).toList = s.toList ++ t.toList := by
    simp [String.toList, String.data_append]
  rw [List.isPrefixOf_iff_prefix, hd]
  exact List.prefix_append _ _

/-- The claim's reading of the architecture component, stated from the
spec's words for comparison: everything after the first underscore. -/
def specArchAfterFirstUnderscore (t : String) : String :=
  String.mk ((t.toList.dropWhile (· ≠ '_')).drop 1)

/-- C2: counterexample.  For the target `linux_arm_6` (the
`GOOS_GOARCH_GOARM` form goreleaser targets use) the resolver sets `Arch`
to `"arm"`, the second underscore-separated component, not to `"arm_6"`,
the part after the first underscore that the claim prescribes. -/
theorem c2_counterexample :
    (buildOptionsForTarget idWorld ctx0 build0 "linux_arm_6").map Options.arch =
        .ok "arm" ∧
      specArchAfterFirstUnderscore "linux_arm_6" = "arm_6" ∧
      ("arm" : String) ≠ "arm_6" := by
  refine ⟨?_, ?_, ?_⟩ <;> decide

/-- C2 (amended): whenever option resolution succeeds, `Os` is the part of
the target before the first underscore and `Arch` is the underscore-
separated component immediately after it (cut at the next underscore);
both are empty when the target contains no underscore. -/
theorem c2_os_arch (w : World) (ctx : Ctx) (b : Build) (t : String) (opts : Options)
    (h : buildOptionsForTarget w ctx b t = .ok opts) :
    (t.toList.contains '_' = true →
        opts.os = String.mk (t.toList.takeWhile (· ≠ '_')) ∧
        opts.arch =
          String.mk (((t.toList.dropWhile (· ≠ '_')).drop 1).takeWhile (· ≠ '_'))) ∧
    (t.toList.contains '_' = false → opts.os = "" ∧ opts.arch = "") := by
  simp only [buildOptionsForTarget] at h
  split at h
  · exact absurd h (by simp)
  · split at h
    · exact absurd h (by simp)
    · simp only [Except.ok.injEq] at h
      subst h
      refine ⟨fun hc => ?_, fun hc => ?_⟩
      · have hmem : '_' ∈ t.toList := List.mem_of_elem_eq_true hc
        constructor
        · show (if t.toList.contains '_' = true then
              String.mk (splitOnChar '_' t.toList).1 else "") = _
          rw [if_pos hc, splitOnChar_fst]
        · show (if t.toList.contains '_' = true then
              String.mk ((splitOnChar '_' t.toList).2.getD 0 []) else "") = _
          rw [if_pos hc, splitOnChar_snd_head _ _ hmem]
      · constructor
        · show (if t.toList.contains '_' = true then
              String.mk (splitOnChar '_' t.toList).1 else "") = ""
          rw [if_neg (by rw [hc]; exact Bool.false_ne_true)]
        · show (if t.toList.contains '_' = true then
              String.mk ((splitOnChar '_' t.toList).2.getD 0 []) else "") = ""
          rw [if_neg (by rw [hc]; exact Bool.false_ne_true)]

/-- C2 witness: the amended statement evaluated on `linux_arm_6`. -/
theorem c2_witness :
    (Options.mk "linux_arm_6" "" "linux" "arm" "bin" "dist/b1_linux_arm_6/bin").os =
        String.mk ("linux_arm_6".toList.takeWhile (· ≠ '_')) ∧
      (Options.mk "linux_arm_6" "" "linux" "arm" "bin" "dist/b1_linux_arm_6/bin").arch =
        String.mk ((("linux_arm_6".toList.dropWhile (· ≠ '_')).drop 1).takeWhile (· ≠ '_')) :=
  (c2_os_arch idWorld ctx0 build0 "linux_arm_6"
      (Options.mk "linux_arm_6" "" "linux" "arm" "bin" "dist/b1_linux_arm_6/bin")
      (by decide)).1 (by decide)

/-- C3: counterexample.  On a windows target whose flag list holds the
c-archive flag before the c-shared flag, `extFor` returns ".lib" although
"-buildmode=c-shared" is among the flags, contradicting the claim's
".dll" case. -/
theorem c3_counterexample :
    "-buildmode=c-shared" ∈ ["-buildmode=c-archive", "-buildmode=c-shared"] ∧
      extFor "windows_amd64" ["-buildmode=c-archive", "-buildmode=c-shared"] = ".lib" ∧
      (".lib" : String) ≠ ".dll" := by
  refine ⟨?_, ?_, ?_⟩ <;> decide

/-- C3 (amended): on windows targets the extension is ".exe" when no
recognized build-mode flag is present, and otherwise the FIRST recognized
build-mode flag in flag order decides ".dll" (c-shared) or ".lib"
(c-archive); ".wasm" exactly for the target `js_wasm`; empty for every
other target. -/
theorem c3_ext (target : String) (flags : List String) :
    (containsSub target.toList "windows".toList = true →
        ((∀ f ∈ flags, isBuildmodeFlag f = false) → extFor target flags = ".exe") ∧
        (∀ pre s post, flags = pre ++ s :: post →
          (∀ f ∈ pre, isBuildmodeFlag f = false) →
          (s = "-buildmode=c-shared" → extFor target flags = ".dll") ∧
          (s = "-buildmode=c-archive" → extFor target flags = ".lib"))) ∧
    (containsSub target.toList "windows".toList = false →
        (target = "js_wasm" → extFor target flags = ".wasm") ∧
        (target ≠ "js_wasm" → extFor target flags = "")) := by
  constructor
  · intro hw
    constructor
    · intro hnone
      unfold extFor
      rw [if_pos hw]
      exact windowsExt_of_no_buildmode flags hnone
    · intro pre s post hflags hpre
      subst hflags
      constructor
      · intro hs
        subst hs
        unfold extFor
        rw [if_pos hw, windowsExt_append_of_no_buildmode pre _ hpre]
        simp [windowsExt]
      · intro hs
        subst hs
        unfold extFor
        rw [if_pos hw, windowsExt_append_of_no_buildmode pre _ hpre]
        simp [windowsExt]
  · intro hw
    constructor
    · intro hj
      subst hj
      unfold extFor
      rw [if_neg (by rw [hw]; exact Bool.false_ne_true), if_pos rfl]
    · intro hj
      unfold extFor
      rw [if_neg (by rw [hw]; exact Bool.false_ne_true), if_neg hj]

/-- C3 witness: the amended statement evaluated on the spec's policy
table. -/
theorem c3_witness :
    extFor "windows_amd64" [] = ".exe" ∧
      extFor "windows_amd64" ["-buildmode=c-shared"] = ".dll" ∧
      extFor "windows_amd64" ["-buildmode=c-archive"] = ".lib" ∧
      extFor "js_wasm" [] = ".wasm" ∧
      extFor "linux_amd64" [] = "" :=
  ⟨((c3_ext "windows_amd64" []).1 (by decide)).1 (by decide),
   (((c3_ext "windows_amd64" ["-buildmode=c-shared"]).1 (by decide)).2
      [] "-buildmode=c-shared" [] rfl (by decide)).1 rfl,
   (((c3_ext "windows_amd64" ["-buildmode=c-archive"]).1 (by decide)).2
      [] "-buildmode=c-archive" [] rfl (by decide)).2 rfl,
   ((c3_ext "js_wasm" []).2 (by decide)).1 rfl,
   ((c3_ext "linux_amd64" []).2 (by decide)).2 (by decide)⟩

/-- C5: a build whose `Skip` flag is set contributes exactly one skip-log
event to the run — no target task, no hook or builder call, no proxying,
and no error — and the loop proceeds to the remaining builds. -/
theorem c5_skip_schedules_nothing (w : World) (ctx : Ctx) (b : Build)
    (rest : List Build) :
    runBuilds w ctx ({ b with skip := true } :: rest) =
      (Event.skipLog b.id :: (runBuilds w ctx rest).1, (runBuilds w ctx rest).2) := by
  simp [runBuilds]

/-- C1: once the proxy phase has succeeded, the executor's join point
returns exactly the list of all failed tasks' errors (in target order),
fails precisely when some task failed, and its event trace contains every
task's events — siblings are never cancelled.  The group semantics is
modelled from the spec (`internal/semerrgroup` is not under `src/`). -/
theorem c1_executor_aggregates_all_errors (w : World) (ctx : Ctx) (b b' : Build)
    (hp : proxy w ctx b = (b', none)) :
    (runPipeOnBuild w ctx b).2 =
        (b'.targets.map (taskForTarget w ctx b')).filterMap Prod.snd ∧
      (runPipeOnBuild w ctx b).2.isEmpty =
        (b'.targets.map (taskForTarget w ctx b')).all (fun r => r.2.isNone) ∧
      (runPipeOnBuild w ctx b).1 =
        ((b'.targets.map (taskForTarget w ctx b')).map Prod.fst).flatten := by
  have hrun : runPipeOnBuild w ctx b =
      semerrgroupWait (b'.targets.map (taskForTarget w ctx b')) := by
    simp [runPipeOnBuild, hp]
  refine ⟨?_, ?_, ?_⟩
  · rw [hrun]; rfl
  · rw [hrun]; exact filterMapSnd_isEmpty_eq_all _
  · rw [hrun]; rfl

/-- A world whose builder fails exactly on target "a". -/
def wC1 : World :=
  { idWorld with builderBuild := fun _ o => if o.target = "a" then .error "boom" else .ok () }

/-- A two-target build. -/
def bC1 : Build := { build0 with targets := ["a", "b"] }

/-- C1 witness: with targets "a" (failing) and "b" (succeeding), the
aggregate carries the failure while the sibling's builder call is still in
the trace. -/
theorem c1_witness :
    ((runPipeOnBuild wC1 ctx0 bC1).2 =
        (bC1.targets.map (taskForTarget wC1 ctx0 bC1)).filterMap Prod.snd ∧
      (runPipeOnBuild wC1 ctx0 bC1).2.isEmpty =
        (bC1.targets.map (taskForTarget wC1 ctx0 bC1)).all (fun r => r.2.isNone) ∧
      (runPipeOnBuild wC1 ctx0 bC1).1 =
        ((bC1.targets.map (taskForTarget wC1 ctx0 bC1)).map Prod.fst).flatten) ∧
      (runPipeOnBuild wC1 ctx0 bC1).2 = ["boom"] ∧
      (runPipeOnBuild wC1 ctx0 bC1).1 =
        [Event.builderCall "b1" "a", Event.builderCall "b1" "b"] :=
  ⟨c1_executor_aggregates_all_errors wC1 ctx0 bC1 bC1 rfl, by decide, by decide⟩

/-- C7: the environment passed to a hook's subprocess is the context
environment, then the build-level environment, then the hook's own
template-expanded entries, in that order (`runHook` applies `runOneHook`
to each hook of the phase in sequence). -/
theorem c7_hook_env_layering (w : World) (ctx : Ctx) (opts : Options)
    (buildEnv : List String) (hook : Hook) (he : List String)
    (hexp : expandHookEnv w opts hook.env = .ok he)
    (c : RunCall) (hc : c ∈ (runOneHook w ctx opts buildEnv hook).1) :
    c.env = ctx.env ++ buildEnv ++ he := by
  unfold runOneHook at hc
  rw [hexp] at hc
  simp only [onOk_ok] at hc
  cases h2 : w.tmplOpts opts hook.dir with
  | error e => simp only [h2, onOk_error] at hc; simp at hc
  | ok dir =>
    simp only [h2, onOk_ok] at hc
    cases h3 : w.tmplOptsEnv opts (ctx.env ++ buildEnv ++ he) hook.cmd with
    | error e => simp only [h3, onOk_error] at hc; simp at hc
    | ok sh =>
      simp only [h3, onOk_ok] at hc
      cases h4 : w.shellwords sh with
      | error e => simp only [h4, onOk_error] at hc; simp at hc
      | ok cmd =>
        simp only [h4, onOk_ok] at hc
        cases h5 : w.runCmd dir cmd (ctx.env ++ buildEnv ++ he) with
        | error e =>
          simp only [h5, onOk_error] at hc
          simp at hc
          subst hc
          simp [List.append_assoc]
        | ok u =>
          simp only [h5, onOk_ok] at hc
          simp at hc
          subst hc
          simp [List.append_assoc]

/-- A world whose subprocess runner fails exactly on the command vector
`["boom"]`. -/
def wC8 : World :=
  { idWorld with runCmd := fun _ cmd _ => if cmd = ["boom"] then .error "exit 1" else .ok () }

/-- A hook that succeeds under `wC8`. -/
def hookOk : Hook := ⟨"ok", "", []⟩

/-- A hook that fails under `wC8`. -/
def hookBoom : Hook := ⟨"boom", "", []⟩

/-- The options `buildOptionsForTarget` resolves for `build0` and target
"t" under an identity template world. -/
def optsT : Options := Options.mk "t" "" "" "" "bin" "dist/b1_t/bin"

/-- `build0` with a failing pre hook. -/
def bC8pre : Build := { build0 with hooks := ⟨[hookBoom], []⟩ }

/-- `build0` with a failing post hook. -/
def bC8post : Build := { build0 with hooks := ⟨[], [hookBoom]⟩ }

/-- C8: hooks run sequentially and the phase returns at the first hook
that errors, running none of the later hooks; the per-target task wraps
the propagated error with the phase tag ("pre hook failed" /
"post hook failed"). -/
theorem c8_first_hook_error_aborts :
    (∀ (w : World) (ctx : Ctx) (opts : Options) (be : List String)
        (pre : List Hook) (h : Hook) (rest : List Hook) (e : String),
      (runHook w ctx opts be pre).2 = none →
      (runOneHook w ctx opts be h).2 = some e →
      runHook w ctx opts be (pre ++ h :: rest) =
        ((runHook w ctx opts be pre).1 ++ (runOneHook w ctx opts be h).1, some e)) ∧
    (∀ (w : World) (ctx : Ctx) (b : Build) (t : String) (opts : Options)
        (calls : List RunCall) (e : String),
      buildOptionsForTarget w ctx b t = .ok opts →
      runHook w ctx opts b.env b.hooks.pre = (calls, some e) →
      taskForTarget w ctx b t =
        (calls.map (Event.hookCall Phase.pre), some ("pre hook failed: " ++ e))) ∧
    (∀ (w : World) (ctx : Ctx) (b : Build) (t : String) (opts : Options)
        (preCalls postCalls : List RunCall) (e : String),
      ctx.skipPostBuildHooks = false →
      buildOptionsForTarget w ctx b t = .ok opts →
      runHook w ctx opts b.env b.hooks.pre = (preCalls, none) →
      w.builderBuild b opts = .ok () →
      runHook w ctx opts b.env b.hooks.post = (postCalls, some e) →
      taskForTarget w ctx b t =
        (preCalls.map (Event.hookCall Phase.pre) ++ [Event.builderCall b.id t] ++
           postCalls.map (Event.hookCall Phase.post),
         some ("post hook failed: " ++ e))) := by
  refine ⟨?_, ?_, ?_⟩
  · intro w ctx opts be pre h rest e hpre hfail
    rw [runHook_append_ok w ctx opts be pre (h :: rest) hpre]
    cases hh : runOneHook w ctx opts be h with
    | mk callsH errH =>
      cases errH with
      | none => rw [hh] at hfail; simp at hfail
      | some e2 =>
        rw [hh] at hfail
        simp at hfail
        subst hfail
        simp [runHook, hh, onPair_some]
  · intro w ctx b t opts calls e hopts hhook
    unfold taskForTarget
    rw [hopts]
    simp only [onOk_ok, hhook, onPair_some]
  · intro w ctx b t opts preCalls postCalls e hskip hopts hpre hbuild hpost
    unfold taskForTarget
    rw [hopts]
    simp only [onOk_ok, hpre, onPair_none, hbuild, hskip, hpost, onPair_some]
    simp [List.append_assoc, hskip]

/-- C8 witness: the three components of the statement instantiated on a
concrete failing hook. -/
theorem c8_witness :
    (runHook wC8 ctx0 optsT [] ([hookOk] ++ hookBoom :: [hookOk]) =
        ((runHook wC8 ctx0 optsT [] [hookOk]).1 ++
           (runOneHook wC8 ctx0 optsT [] hookBoom).1, some "exit 1")) ∧
      (taskForTarget wC8 ctx0 bC8pre "t" =
        ([RunCall.mk "" ["boom"] []].map (Event.hookCall Phase.pre),
         some ("pre hook failed: " ++ "exit 1"))) ∧
      (taskForTarget wC8 ctx0 bC8post "t" =
        (([] : List RunCall).map (Event.hookCall Phase.pre) ++
           [Event.builderCall bC8post.id "t"] ++
           [RunCall.mk "" ["boom"] []].map (Event.hookCall Phase.post),
         some ("post hook failed: " ++ "exit 1"))) :=
  ⟨c8_first_hook_error_aborts.1 wC8 ctx0 optsT [] [hookOk] hookBoom [hookOk]
      "exit 1" (by decide) (by decide),
   c8_first_hook_error_aborts.2.1 wC8 ctx0 bC8pre "t" optsT
      [RunCall.mk "" ["boom"] []] "exit 1" (by decide) (by decide),
   c8_first_hook_error_aborts.2.2 wC8 ctx0 bC8post "t" optsT
      [] [RunCall.mk "" ["boom"] []] "exit 1" rfl (by decide) (by decide)
      (by decide) (by decide)⟩

/-- C10: with `SkipPostBuildHooks` set, a target task runs no post hook at
all, while option resolution, pre hooks and the builder call are exactly
those of the same task with the flag unset (the flag-set trace is the
flag-unset trace with post-hook events removed). -/
theorem c10_skip_post_build_hooks (w : World) (ctx : Ctx) (b : Build) (t : String) :
    ((taskForTarget w { ctx with skipPostBuildHooks := true } b t).1.all
        (fun e => !e.isPostHookCall) = true) ∧
      (taskForTarget w { ctx with skipPostBuildHooks := true } b t).1 =
        (taskForTarget w { ctx with skipPostBuildHooks := false } b t).1.filter
          (fun e => !e.isPostHookCall) := by
  have hopt : buildOptionsForTarget w { ctx with skipPostBuildHooks := true } b t =
      buildOptionsForTarget w { ctx with skipPostBuildHooks := false } b t :=
    buildOptionsForTarget_congr _ _ _ _ _ rfl
  have hhk : ∀ (opts : Options) (hooks : List Hook),
      runHook w { ctx with skipPostBuildHooks := true } opts b.env hooks =
        runHook w { ctx with skipPostBuildHooks := false } opts b.env hooks :=
    fun opts hooks => runHook_congr _ _ _ _ _ _ rfl
  unfold taskForTarget
  rw [hopt]
  cases h1 : buildOptionsForTarget w { ctx with skipPostBuildHooks := false } b t with
  | error e => simp only [onOk_error]; simp
  | ok opts =>
    simp only [onOk_ok]
    rw [hhk opts b.hooks.pre]
    cases h2 : runHook w { ctx with skipPostBuildHooks := false } opts b.env b.hooks.pre with
    | mk calls err =>
      cases err with
      | some e =>
        simp only [onPair_some]
        simp [all_notPost_mapPre, filter_notPost_mapPre]
      | none =>
        simp only [onPair_none]
        cases h3 : w.builderBuild b opts with
        | error e =>
          simp only [onOk_error]
          simp [List.filter_append, List.all_append, List.filter_cons, List.all_cons,
            all_notPost_mapPre, filter_notPost_mapPre, filter_notPost_mapPost,
            isPostHookCall_builderCall]
        | ok u =>
          simp only [onOk_ok]
          cases h4 : runHook w { ctx with skipPostBuildHooks := false } opts
              b.env b.hooks.post with
          | mk calls2 err2 =>
            cases err2 <;>
              simp [onPair_some, onPair_none, List.filter_append, List.all_append,
                List.filter_cons, List.all_cons, all_notPost_mapPre,
                filter_notPost_mapPre, filter_notPost_mapPost, isPostHookCall_builderCall]

/-- A context with a nonempty base environment. -/
def ctxC7 : Ctx := { ctx0 with env := ["A=1"] }

/-- A hook with one env entry. -/
def hookC7 : Hook := ⟨"cmd0", "", ["HOOKVAR=1"]⟩

/-- C7 witness: the layered environment computed for a concrete hook. -/
theorem c7_witness :
    (RunCall.mk "" ["cmd0"] ["A=1", "B=2", "HOOKVAR=1"]).env =
      ctxC7.env ++ ["B=2"] ++ ["HOOKVAR=1"] :=
  c7_hook_env_layering idWorld ctxC7 optsT ["B=2"] hookC7 ["HOOKVAR=1"] (by decide)
    (RunCall.mk "" ["cmd0"] ["A=1", "B=2", "HOOKVAR=1"]) (by decide)

/-- A world whose process environment maps A to a value that itself holds
a reference ("$B") and B to "x". -/
def wC9 : World :=
  { idWorld with
      procEnv := fun n => if n = "A" then "$B" else if n = "B" then "x" else "" }

/-- A build with one env entry referencing the variable A. -/
def bC9 : Build := { build0 with env := ["FOO=${A}"] }

/-- C9: counterexample.  Because env expansion re-runs on each defaulting
pass, an env value that expands to another reference keeps changing:
"FOO=${A}" becomes "FOO=$B" after one pass and "FOO=x" after two, so
applying the per-build defaulting to its own output differs from applying
it once. -/
theorem c9_counterexample :
    (buildWithDefaults wC9 ctx0 bC9).bind (buildWithDefaults wC9 ctx0) ≠
      buildWithDefaults wC9 ctx0 bC9 := by decide

/-- C9 (amended): per-build defaulting is idempotent provided the language
builder's `WithDefaults` is idempotent and returns definitions that the
orchestrator's own defaulting leaves fixed (non-empty Lang/Binary/ID and
env entries whose `${VAR}` expansion has reached a fixpoint); without the
env-fixpoint proviso the claim fails, see the counterexample. -/
theorem c9_defaults_idempotent (w : World) (ctx : Ctx)
    (hfix : ∀ b c, w.builderWithDefaults b = .ok c → orchestratorDefaults w ctx c = c)
    (hidem : ∀ b c, w.builderWithDefaults b = .ok c → w.builderWithDefaults c = .ok c)
    (b : Build) :
    (buildWithDefaults w ctx b).bind (buildWithDefaults w ctx) =
      buildWithDefaults w ctx b := by
  unfold buildWithDefaults
  cases h : w.builderWithDefaults (orchestratorDefaults w ctx b) with
  | error e => rfl
  | ok c =>
    show buildWithDefaults w ctx c = Except.ok c
    unfold buildWithDefaults
    rw [hfix _ _ h]
    exact hidem _ _ h

/-- A world whose language builder always returns the already-fixed
definition `build0`. -/
def wC9W : World := { idWorld with builderWithDefaults := fun _ => .ok build0 }

/-- C9 witness: under a constant idempotent builder the defaulting is
idempotent on `build0`. -/
theorem c9_witness :
    (buildWithDefaults wC9W ctx0 build0).bind (buildWithDefaults wC9W ctx0) =
      buildWithDefaults wC9W ctx0 build0 :=
  c9_defaults_idempotent wC9W ctx0
    (fun b c h => by
      have hc : build0 = c := by simpa [wC9W, idWorld] using h
      subst hc
      decide)
    (fun b c h => by
      have hc : build0 = c := by simpa [wC9W, idWorld] using h
      subst hc
      decide)
    build0

/-- C4: with a nonempty build list whose per-build defaulting succeeds,
`Pipe.Default` returns the defaulted list exactly when the resulting IDs
are pairwise distinct, and returns the registry's validation error
whenever a duplicate exists (the `ids` registry is modelled from the
spec). -/
theorem c4_duplicate_ids (w : World) (ctx : Ctx) (bs : List Build)
    (hne : ctx.builds ≠ [])
    (hok : mapMExcept (buildWithDefaults w ctx) ctx.builds = .ok bs) :
    ((bs.map Build.id).Nodup → Pipe.Default w ctx = .ok bs) ∧
      (∀ e, idsValidate (bs.map Build.id) = some e → Pipe.Default w ctx = .error e) ∧
      ((idsValidate (bs.map Build.id)).isSome ↔ ¬ (bs.map Build.id).Nodup) := by
  have hie : ctx.builds.isEmpty = false := by
    cases hb : ctx.builds with
    | nil => exact absurd hb hne
    | cons x xs => rfl
  refine ⟨?_, ?_, idsValidate_isSome_iff _⟩
  · intro hnd
    have hv : idsValidate (bs.map Build.id) = none := by
      cases hvv : idsValidate (bs.map Build.id) with
      | none => rfl
      | some e =>
        have hns : ¬ (bs.map Build.id).Nodup :=
          (idsValidate_isSome_iff _).mp (by simp [hvv])
        exact absurd hnd hns
    simp [Pipe.Default, hok, hie, hv, onOk_ok]
  · intro e he
    simp [Pipe.Default, hok, hie, he, onOk_ok]

/-- Two builds sharing the id "p". -/
def bDup1 : Build := { build0 with id := "p" }

/-- Second build with the duplicate id "p". -/
def bDup2 : Build := { build0 with id := "p", binary := "other" }

/-- A build with the distinct id "q". -/
def bQ : Build := { build0 with id := "q" }

/-- A configuration with a duplicated build ID. -/
def ctxC4 : Ctx := { ctx0 with builds := [bDup1, bDup2] }

/-- A configuration with distinct build IDs. -/
def ctxC4ok : Ctx := { ctx0 with builds := [bDup1, bQ] }

/-- C4 witness: duplicate IDs yield the validation error, distinct IDs
yield the defaulted list. -/
theorem c4_witness :
    Pipe.Default idWorld ctxC4 = .error "found more than one build with the id: p" ∧
      Pipe.Default idWorld ctxC4ok = .ok [bDup1, bQ] :=
  ⟨(c4_duplicate_ids idWorld ctxC4 [bDup1, bDup2] (by decide) (by decide)).2.1
      "found more than one build with the id: p" (by decide),
   (c4_duplicate_ids idWorld ctxC4ok [bDup1, bQ] (by decide) (by decide)).1 (by decide)⟩

/-- The all-or-nothing property `proxy` guarantees on failure: whatever
error comes out, the build is returned unchanged and the error carries the
proxy wrapper. -/
def proxyErrProp (b : Build) (res : Build × Option String) : Prop :=
  ∀ e, res.2 = some e → res.1 = b ∧ ∃ s, e = "failed to proxy module: " ++ s

lemma perr_proxyErrProp (b : Build) (e0 : String) : proxyErrProp b (perr b e0) :=
  fun _ he => ⟨rfl, e0, (Option.some.inj he).symm⟩

lemma onOk_proxyErrProp {α : Type} (b : Build) (r : Except String α)
    (k : α → Build × Option String) (hok : ∀ a, proxyErrProp b (k a)) :
    proxyErrProp b (onOk r (perr b) k) := by
  cases r with
  | error e => exact perr_proxyErrProp b e
  | ok a => exact hok a

lemma proxy_error_shape (w : World) (ctx : Ctx) (b : Build) :
    proxyErrProp b (proxy w ctx b) := by
  unfold proxy
  cases b.proxy with
  | none => intro e he; simp at he
  | some pc =>
    apply onOk_proxyErrProp; intro proxyPath
    apply onOk_proxyErrProp; intro version
    apply onOk_proxyErrProp; intro modContent
    apply onOk_proxyErrProp; intro mainContent
    apply onOk_proxyErrProp; intro u1
    apply onOk_proxyErrProp; intro u2
    apply onOk_proxyErrProp; intro u3
    apply onOk_proxyErrProp; intro u4
    apply onOk_proxyErrProp; intro u5
    apply onOk_proxyErrProp; intro u6
    cases htidy : w.tidy with
    | error eo =>
      intro e he
      exact ⟨rfl, eo.1 ++ ": " ++ eo.2, (Option.some.inj he).symm⟩
    | ok u =>
      intro e he
      simp at he

/-- C6: proxying is all-or-nothing.  If any proxy step fails, the build
comes back unchanged (in particular `Main` and `Dir`), the error carries
the "failed to proxy module: " wrapper, and `runPipeOnBuild` returns that
single error with no task event — nothing was scheduled.  Only when every
step succeeds are `Main` rewritten to the expanded import path and `Dir`
to the scratch directory `<dist>/build_<id>`. -/
theorem c6_proxy_all_or_nothing (w : World) (ctx : Ctx) (b : Build) :
    (∀ e, (proxy w ctx b).2 = some e →
        (proxy w ctx b).1 = b ∧
        "failed to proxy module: ".toList.isPrefixOf e.toList = true ∧
        runPipeOnBuild w ctx b = ([], [e])) ∧
      (∀ pc c, b.proxy = some pc → proxy w ctx b = (c, none) →
        c.dir = ctx.dist ++ "/build_" ++ b.id ∧
        w.tmplApply pc.path = .ok c.main) := by
  constructor
  · intro e he
    obtain ⟨h1, s, hs⟩ := proxy_error_shape w ctx b e he
    refine ⟨h1, ?_, ?_⟩
    · rw [hs]; exact toList_isPrefixOf_append _ _
    · unfold runPipeOnBuild
      cases hp : proxy w ctx b with
      | mk pb po =>
        have hpo : po = some e := by rw [hp] at he; exact he
        subst hpo
        rfl
  · intro pc c hbp hp
    unfold proxy at hp
    rw [hbp] at hp
    cases h1 : w.tmplApply pc.path with
    | error e => simp only [h1, onOk_error] at hp; simp [perr] at hp
    | ok p1 =>
      simp only [h1, onOk_ok] at hp
      cases h2 : w.tmplApply pc.version with
      | error e => simp only [h2, onOk_error] at hp; simp [perr] at hp
      | ok p2 =>
        simp only [h2, onOk_ok] at hp
        cases h3 : w.tmplApplyExtra p1 p2 goModTemplate with
        | error e => simp only [h3, onOk_error] at hp; simp [perr] at hp
        | ok m1 =>
          simp only [h3, onOk_ok] at hp
          cases h4 : w.tmplApplyExtra p1 p2 mainGoTemplate with
          | error e => simp only [h4, onOk_error] at hp; simp [perr] at hp
          | ok m2 =>
            simp only [h4, onOk_ok] at hp
            cases h5 : w.mkdir (ctx.dist ++ "/build_" ++ b.id) with
            | error e => simp only [h5, onOk_error] at hp; simp [perr] at hp
            | ok u1 =>
              simp only [h5, onOk_ok] at hp
              cases h6 : w.writeFile (ctx.dist ++ "/build_" ++ b.id ++ "/main.go") m2 with
              | error e => simp only [h6, onOk_error] at hp; simp [perr] at hp
              | ok u2 =>
                simp only [h6, onOk_ok] at hp
                cases h7 : w.writeFile (ctx.dist ++ "/build_" ++ b.id ++ "/go.mod") m1 with
                | error e => simp only [h7, onOk_error] at hp; simp [perr] at hp
                | ok u3 =>
                  simp only [h7, onOk_ok] at hp
                  cases h8 : w.openRead "go.sum" with
                  | error e => simp only [h8, onOk_error] at hp; simp [perr] at hp
                  | ok u4 =>
                    simp only [h8, onOk_ok] at hp
                    cases h9 : w.openWrite (ctx.dist ++ "/build_" ++ b.id ++ "/go.sum") with
                    | error e => simp only [h9, onOk_error] at hp; simp [perr] at hp
                    | ok u5 =>
                      simp only [h9, onOk_ok] at hp
                      cases h10 : w.ioCopy with
                      | error e => simp only [h10, onOk_error] at hp; simp [perr] at hp
                      | ok u6 =>
                        simp only [h10, onOk_ok] at hp
                        cases h11 : w.tidy with
                        | error eo => simp only [h11] at hp; simp [perr] at hp
                        | ok u7 =>
                          simp only [h11] at hp
                          injection hp with hc1 hc2
                          subst hc1
                          exact ⟨rfl, rfl⟩

/-- The proxied package configuration used by the C6 witness. -/
def pcX : ProxyCfg := ⟨"github.com/x", "v1.0.0"⟩

/-- A proxied build. -/
def bProxied : Build := { build0 with proxy := some pcX }

/-- A world where creating the scratch directory fails. -/
def wProxyFail : World := { idWorld with mkdir := fun _ => .error "mkdir failed" }

/-- C6 witness: a failing mkdir aborts proxying with the wrapped error and
schedules nothing; with every step succeeding, Main and Dir are rewritten. -/
theorem c6_witness :
    ((proxy wProxyFail ctx0 bProxied).1 = bProxied ∧
        "failed to proxy module: ".toList.isPrefixOf
          "failed to proxy module: mkdir failed".toList = true ∧
        runPipeOnBuild wProxyFail ctx0 bProxied =
          ([], ["failed to proxy module: mkdir failed"])) ∧
      ((proxy idWorld ctx0 bProxied).1.dir = ctx0.dist ++ "/build_" ++ bProxied.id ∧
        idWorld.tmplApply pcX.path = .ok (proxy idWorld ctx0 bProxied).1.main) :=
  ⟨(c6_proxy_all_or_nothing wProxyFail ctx0 bProxied).1
      "failed to proxy module: mkdir failed" (by decide),
   (c6_proxy_all_or_nothing idWorld ctx0 bProxied).2 pcX
      (proxy idWorld ctx0 bProxied).1 rfl (by decide)⟩
